import Mathlib

/-!
# opendlv.ui: the HTTP/WebSocket server `WebsocketServer`

A shallow embedding of `src/opendlv-ui-server.cpp` and the properties of it that the
specification states: the broadcast buffer (`sendDataToAllOtherClients`,
`getOutputDataBuffer`), the Data-protocol callback (`callbackData`, `loginUser`), and the
HTTP pipeline (`callbackHttp`, `createHttpHeader`, `createSessionData`, `split`).

Conventions of the embedding.

* A `std::string` is a list of characters (`Str`), one `Char` per C++ `char`.
* Machine integers are `Nat`/`Int` with the reduction of the C++ type made explicit:
  `toUInt32`, `toInt32`, `toUInt16`.
* Member functions take the server object as an explicit state and return the new one.
* What the protocol engine (libwebsockets) is asked to do is recorded as a list of
  `Action`s; what it answers is an input of the model (`Wsi`).
-/

namespace OpendlvUi

/-! ## Strings and machine integers -/

/-- A `std::string`: the sequence of its `char`s. -/
abbrev Str := List Char

/-- Conversion to `uint32_t`. -/
def toUInt32 (n : Nat) : Nat := n % 2 ^ 32

/-- Conversion to `uint16_t`. -/
def toUInt16 (z : Int) : Nat := (z % 65536).toNat

/-- Conversion to `int32_t` (two's complement, as every supported target does it). -/
def toInt32 (z : Int) : Int :=
  if z % 2 ^ 32 < 2 ^ 31 then z % 2 ^ 32 else z % 2 ^ 32 - 2 ^ 32

/-- Position of the first `c` in `text`, counted from the head of `text`. -/
def findIn (c : Char) : Str → Option Nat
  | [] => none
  | x :: xs => if x = c then some 0 else (findIn c xs).map (· + 1)

/-- The call `text.find(c, pos)` of `std::string`; `none` is `std::string::npos`. -/
def find (text : Str) (c : Char) (pos : Nat) : Option Nat :=
  (findIn c (text.drop pos)).map (· + pos)

/-- The call `text.substr(pos, n)` of `std::string`. -/
def substr (text : Str) (pos n : Nat) : Str := (text.drop pos).take n

/-- The `while` loop of `WebsocketServer::split` together with the `push_back` that follows
it: `fuel` bounds the number of iterations, `start` and `tokens` are the loop variables. -/
def splitLoop (text : Str) (delimiter : Char) : Nat → Nat → List Str → List Str
  | 0, start, tokens => tokens ++ [text.drop start]
  | fuel + 1, start, tokens =>
    match find text delimiter start with
    | some e =>
      splitLoop text delimiter fuel (e + 1) (tokens ++ [substr text start (e - start)])
    | none => tokens ++ [text.drop start]

/-- The function `WebsocketServer::split`. Every iteration of the loop moves `start` past one
more character of `text`, so `text.length + 1` iterations are always enough
(`splitLoop_eq`). -/
def split (text : Str) (delimiter : Char) : List Str :=
  splitLoop text delimiter (text.length + 1) 0 []

/-! ## The server object -/

/-- Modelled from the spec: the class `SessionData` of `session-data.hpp`, a header that is
not among the sources. A session is identified by its 16-bit id and owns state that is opaque
to the server; the server only constructs it from a session id. -/
structure SessionData where
  sessionId : Nat
deriving DecidableEq, Repr

/-- A `std::map`: a list of key/value entries with pairwise different keys. -/
abbrev StdMap (κ ν : Type) := List (κ × ν)

/-- The lookup `m.find(k)` of a `std::map`. -/
def StdMap.get? {κ ν : Type} [DecidableEq κ] (m : StdMap κ ν) (k : κ) : Option ν :=
  match m with
  | [] => none
  | (k', v) :: rest => if k' = k then some v else StdMap.get? rest k

/-- The assignment `m[k] = v` of a `std::map`: the entry of `k` is replaced, or added. -/
def StdMap.assign {κ ν : Type} [DecidableEq κ] (m : StdMap κ ν) (k : κ) (v : ν) :
    StdMap κ ν :=
  match m with
  | [] => [(k, v)]
  | (k', v') :: rest => if k' = k then (k, v) :: rest else (k', v') :: StdMap.assign rest k v

/-- The call `m.count(k)` of a `std::map`. -/
def StdMap.count {κ ν : Type} [DecidableEq κ] (m : StdMap κ ν) (k : κ) : Nat :=
  if (StdMap.get? m k).isSome then 1 else 0

/-- The data members of `WebsocketServer` that the functions below read or write, and the
entry `m_protocols[1].tx_packet_size` of the protocol table (the table is defined in
`opendlv-ui-server.hpp`, a header that is not among the sources, so its value is a parameter
here). `m_context` tells whether the engine context is non-null. The two delegates are
arguments of the functions that call them. -/
structure WebsocketServer where
  m_sessionData : StdMap Nat (Option SessionData)
  m_outputData : Str
  m_context : Bool
  m_outputDataBuffer : List Char
  m_clientCount : Nat
  m_outputDataSenderUserId : Int
  tx_packet_size : Nat
deriving DecidableEq, Repr

/-- What the server asks of the protocol engine, or prints, in the order it does so. -/
inductive Action where
  /-- The call `lws_return_http_status(wsi, code, body)`. -/
  | returnHttpStatus (code : Nat) (body : Option Str)
  /-- The call `lws_http_transaction_completed(wsi)`. -/
  | httpTransactionCompleted
  /-- The call of the HTTP request delegate. -/
  | httpRequestDelegate (page : Str) (getData : StdMap Str Str)
      (sessionData : Option SessionData) (clientIp : Str)
  /-- The call `lws_write(wsi, bytes, bytes.length, LWS_WRITE_HTTP_HEADERS)`. -/
  | writeHttpHeaders (bytes : Str)
  /-- The call `lws_write(wsi, bytes, bytes.length, LWS_WRITE_HTTP)`. -/
  | writeHttp (bytes : Str)
  /-- The call `lws_write(wsi, bytes, bytes.length, LWS_WRITE_BINARY)`. -/
  | writeBinary (bytes : Str)
  /-- The call `lws_callback_on_writable(wsi)`. -/
  | callbackOnWritable
  /-- The diagnostic on `std::cerr` of a broadcast that is too long. -/
  | cerrTooMuchData (len limit : Nat)
  /-- The call `lws_cancel_service(context)`. -/
  | cancelService
  /-- The call `lws_callback_on_writable_all_protocol(context, &m_protocols[1])`. -/
  | callbackOnWritableAllProtocol
  /-- The call `lwsl_notice` of the HTTP body. -/
  | notice (body : Str)
  /-- The call of the data-receive delegate. -/
  | dataReceiveDelegate (message clientIp : Str) (senderId : Nat)
deriving DecidableEq, Repr

/-- The value `MAX_TX_LENGTH` of the constructor and `LIMIT` of
`sendDataToAllOtherClients`: `m_protocols[1].tx_packet_size` as a `uint32_t`. -/
def LIMIT (s : WebsocketServer) : Nat := toUInt32 s.tx_packet_size

/-- The constructor: the members after the initialiser list and the allocation of the
transmission buffer of `MAX_TX_LENGTH + LWS_PRE` bytes (their initial values are
indeterminate in C++, here they are zero bytes). `context` tells whether
`lws_create_context` gave a context. -/
def WebsocketServer.new (txPacketSize LWS_PRE : Nat) (context : Bool) : WebsocketServer :=
  { m_sessionData := []
    m_outputData := []
    m_context := context
    m_outputDataBuffer := List.replicate (toUInt32 txPacketSize + LWS_PRE) (Char.ofNat 0)
    m_clientCount := 0
    m_outputDataSenderUserId := -1
    tx_packet_size := txPacketSize }

/-- The transmission buffer has the size the constructor allocated. The constructor
establishes this and no function changes it (`bufferAllocated_new` and the lemmas after
it). -/
def WebsocketServer.BufferAllocated (s : WebsocketServer) (LWS_PRE : Nat) : Prop :=
  s.m_outputDataBuffer.length = LIMIT s + LWS_PRE

instance (s : WebsocketServer) (LWS_PRE : Nat) : Decidable (s.BufferAllocated LWS_PRE) := by
  unfold WebsocketServer.BufferAllocated; infer_instance

/-! ## The broadcast buffer -/

/-- The function `WebsocketServer::sendDataToAllOtherClients`: the new state and the
actions, in order. `LEN` is a `uint32_t`, so it is `data.length() + 1` reduced modulo
`2 ^ 32`. -/
def sendDataToAllOtherClients (s : WebsocketServer) (data : Str) (senderUserId : Int) :
    WebsocketServer × List Action :=
  let s := { s with m_outputDataSenderUserId := senderUserId }
  if s.m_context = false then
    (s, [])
  else
    let LEN := toUInt32 (data.length + 1)
    if LEN > LIMIT s then
      (s, [Action.cerrTooMuchData LEN (LIMIT s)])
    else
      ({ s with m_outputData := data },
        [Action.cancelService, Action.callbackOnWritableAllProtocol])

/-- The function `WebsocketServer::sendDataToAllClients`. -/
def sendDataToAllClients (s : WebsocketServer) (data : Str) : WebsocketServer × List Action :=
  sendDataToAllOtherClients s data (-1)

/-- The call `memcpy(dst + off, src, n)` into an array `dst`: defined when the `n` bytes lie
inside `dst`; writing past the end of the array has no defined result (`none`). -/
def memcpy (dst : List Char) (off : Nat) (src : List Char) (n : Nat) : Option (List Char) :=
  if off + n ≤ dst.length then some (dst.take off ++ src.take n ++ dst.drop (off + n))
  else none

/-- The function `WebsocketServer::getOutputDataBuffer`: the state after the copy into the
transmission buffer and the length `LEN` it returns; the pointer it returns is the
transmission buffer `m_outputDataBuffer` of the new state. -/
def getOutputDataBuffer (LWS_PRE : Nat) (s : WebsocketServer) : Option (WebsocketServer × Nat) :=
  let LEN := s.m_outputData.length
  match memcpy s.m_outputDataBuffer LWS_PRE s.m_outputData LEN with
  | some buffer => some ({ s with m_outputDataBuffer := buffer }, LEN)
  | none => none

/-- The function `WebsocketServer::getOutputDataSenderUserId`. -/
def getOutputDataSenderUserId (s : WebsocketServer) : Int := s.m_outputDataSenderUserId

/-- The function `WebsocketServer::loginUser`: the counter is a `uint32_t`. -/
def loginUser (s : WebsocketServer) : WebsocketServer × Nat :=
  let s := { s with m_clientCount := toUInt32 (s.m_clientCount + 1) }
  (s, s.m_clientCount)

/-- The reasons `callbackData` tells apart. -/
inductive DataReason where
  | established
  | receive (data clientIp : Str)
  | serverWriteable
  | other
deriving DecidableEq, Repr

/-- The bytes `lws_write(wsi, &buffer[LWS_PRE], len, ...)` sends. -/
def bytesAt (buffer : List Char) (LWS_PRE len : Nat) : Str := (buffer.drop LWS_PRE).take len

/-- The function `WebsocketServer::callbackData`. `userId` is the `int32_t` in the
per-connection memory `user`; the result is the new state, the new value of that slot and the
actions. The return value of the function is always `0`. `dataReceiveDelegate` tells
whether the data-receive delegate is set. -/
def callbackData (LWS_PRE : Nat) (dataReceiveDelegate : Bool) (s : WebsocketServer)
    (reason : DataReason) (userId : Int) : Option (WebsocketServer × Int × List Action) :=
  match reason with
  | DataReason.established =>
    some ((loginUser s).1, toInt32 (loginUser s).2, [])
  | DataReason.receive data clientIp =>
    some (s, userId,
      if dataReceiveDelegate then
        [Action.dataReceiveDelegate data clientIp (userId % 2 ^ 32).toNat]
      else [])
  | DataReason.serverWriteable =>
    if getOutputDataSenderUserId s ≠ userId then
      match getOutputDataBuffer LWS_PRE s with
      | some (s, len) =>
        some (s, userId, [Action.writeBinary (bytesAt s.m_outputDataBuffer LWS_PRE len)])
      | none => none
    else some (s, userId, [])
  | DataReason.other => some (s, userId, [])

/-- The state after `n` further connections were established on the Data protocol. -/
def afterConnections (LWS_PRE : Nat) (d : Bool) (s : WebsocketServer) : Nat → WebsocketServer
  | 0 => s
  | n + 1 =>
    match callbackData LWS_PRE d (afterConnections LWS_PRE d s n) DataReason.established 0 with
    | some (s', _, _) => s'
    | none => afterConnections LWS_PRE d s n

/-- The `clientId` in the slot of the `n`-th connection (`n = 1` is the first) that is
established on a freshly constructed server; `none` if the callback gave no result. -/
def nthClientId (txPacketSize LWS_PRE : Nat) (d : Bool) (n : Nat) : Option Int :=
  match callbackData LWS_PRE d
      (afterConnections LWS_PRE d (WebsocketServer.new txPacketSize LWS_PRE true) (n - 1))
      DataReason.established 0 with
  | some (_, id, _) => some id
  | none => none

/-- The state after the broadcasts `bs` (payload and excluded sender), in order. -/
def broadcastAll (s : WebsocketServer) (bs : List (Str × Int)) : WebsocketServer :=
  bs.foldl (fun s b => (sendDataToAllOtherClients s b.1 b.2).1) s

/-- One drain: `getOutputDataBuffer`, and what a reader of its result sees: the bytes of the
returned buffer after the padding, and the returned length. -/
def drain (LWS_PRE : Nat) (s : WebsocketServer) : Option (WebsocketServer × Str × Nat) :=
  match getOutputDataBuffer LWS_PRE s with
  | some (s', len) => some (s', bytesAt s'.m_outputDataBuffer LWS_PRE len, len)
  | none => none

/-- The results of `k` drains in a row, and the state after them. -/
def drains (LWS_PRE : Nat) : Nat → WebsocketServer → Option (WebsocketServer × List (Str × Nat))
  | 0, s => some (s, [])
  | k + 1, s =>
    match drain LWS_PRE s with
    | some (s', r) =>
      match drains LWS_PRE k s' with
      | some (s'', rs) => some (s'', r :: rs)
      | none => none
    | none => none

/-- A payload of `2 ^ 32 - 1` bytes. -/
@[irreducible] def payload4GiB : Str := List.replicate 4294967295 'x'

/-! ## The HTTP pipeline -/

/-- Modelled from the spec: the class `HttpRequest` of `http-request.hpp`, a header that is
not among the sources. The parsed request holds the query parameters as a mapping from key to
value and the raw path; `callbackHttp` constructs it from these two. -/
structure HttpRequest where
  getData : StdMap Str Str
  page : Str
deriving DecidableEq, Repr

/-- Modelled from the spec: the class `HttpResponse` of `http-response.hpp`, a header that is
not among the sources. The response holds a content type and a body, which the server reads
through `getContentType()` and `getContent()`. -/
structure HttpResponse where
  contentType : Str
  content : Str
deriving DecidableEq, Repr

/-- Modelled from the spec: the per-connection memory `ClientData` of the HTTP protocol,
declared in `opendlv-ui-server.hpp`, a header that is not among the sources. It holds the
parsed request, the response that is not sent yet and the session id; `callbackHttp` writes
these three members. -/
structure ClientData where
  httpRequest : Option HttpRequest
  httpResponse : Option HttpResponse
  sessionId : Nat
deriving DecidableEq, Repr

/-- What the protocol engine holds for the connection `wsi` and answers when asked. Header
values are the C strings the engine copies out. `cookie` is the `Cookie` header and `postUri`
the POST URI token (`none`: the request has none), `uriArgs` are the fragments of the query
string, `peer` is the text `lws_get_peer_simple` gives, `transactionCompleted` the value
`lws_http_transaction_completed` returns and `writeResult` the value `lws_write` returns. -/
structure Wsi where
  cookie : Option Str
  uriArgs : List Str
  postUri : Option Str
  peer : Str
  transactionCompleted : Int
  writeResult : Int
deriving DecidableEq, Repr

/-- The engine call `lws_hdr_total_length(wsi, token)`. -/
def lws_hdr_total_length (hdr : Option Str) : Nat :=
  match hdr with
  | none => 0
  | some h => h.length

/-- The engine call `lws_hdr_copy(wsi, buf, len, token)`: the return value and the C string
left in `buf`. It returns `-1` when the header and its terminator do not fit into `len`
bytes, else the length of the header (`0` when there is none). -/
def lws_hdr_copy (hdr : Option Str) (len : Nat) : Int × Str :=
  match hdr with
  | none => (0, [])
  | some h => if h.length ≥ len then (-1, []) else (h.length, h)

/-- The engine call `lws_hdr_copy_fragment(wsi, buf, len, token, fragIdx)`: the return value
and the C string left in `buf`. It returns `-1` when there is no such fragment or when the
fragment and its terminator do not fit into `len` bytes, else the length of the fragment. -/
def lws_hdr_copy_fragment (frags : List Str) (len fragIdx : Nat) : Int × Str :=
  match frags.get? fragIdx with
  | none => (-1, [])
  | some f => if f.length ≥ len then (-1, []) else (f.length, f)

/-- What makes `callbackHttp` leave without a return value: the two exceptions of `std::stoi`,
and the use of a null `httpResponse`. -/
inductive Fault where
  | invalid_argument
  | out_of_range
  | nullDereference
deriving DecidableEq, Repr

/-- The white space `std::stoi` skips (`isspace` in the C locale). -/
def isspace (c : Char) : Bool :=
  c = ' ' || (9 ≤ c.toNat && c.toNat ≤ 13)

/-- The value of a sequence of decimal digits. -/
def digitsValue (ds : Str) : Nat :=
  ds.foldl (fun acc c => 10 * acc + (c.toNat - 48)) 0

/-- The call `std::stoi(str)`: white space is skipped, then an optional sign and the longest
run of decimal digits are read, what follows is ignored; no digit at all is
`std::invalid_argument`, a value that is no `int` is `std::out_of_range`. -/
def stoi (str : Str) : Except Fault Int :=
  let s1 := str.dropWhile isspace
  let neg := s1.head? = some '-'
  let s2 := if s1.head? = some '-' ∨ s1.head? = some '+' then s1.tail
    else s1
  let digits := s2.takeWhile Char.isDigit
  if digits = [] then Except.error Fault.invalid_argument
  else
    let v : Int := if neg then -(digitsValue digits : Int) else (digitsValue digits : Int)
    if v < -2 ^ 31 ∨ 2 ^ 31 - 1 < v then Except.error Fault.out_of_range
    else Except.ok v

/-- The call `std::to_string(n)` for an `int`. -/
def to_string (z : Int) : Str :=
  if z < 0 then '-' :: Nat.toDigits 10 z.natAbs else Nat.toDigits 10 z.toNat

/-- The function `WebsocketServer::createSessionData`. -/
def createSessionData (s : WebsocketServer) (sessionId : Nat) : WebsocketServer :=
  { s with m_sessionData := StdMap.assign s.m_sessionData sessionId (some ⟨sessionId⟩) }

/-- The type of the HTTP request delegate. -/
abbrev HttpRequestDelegate := HttpRequest → Option SessionData → Str → Option HttpResponse

/-- The function `WebsocketServer::delegateRequestedHttp`. The lookup
`m_sessionData[sessionId]` adds an entry with a null pointer when the map has none. -/
def delegateRequestedHttp (m_httpRequestDelegate : Option HttpRequestDelegate)
    (s : WebsocketServer) (request : HttpRequest) (clientIp : Str) (sessionId : Nat) :
    WebsocketServer × Option HttpResponse × List Action :=
  match m_httpRequestDelegate with
  | some delegate =>
    match StdMap.get? s.m_sessionData sessionId with
    | some sessionData =>
      (s, delegate request sessionData clientIp,
        [Action.httpRequestDelegate request.page request.getData sessionData clientIp])
    | none =>
      ({ s with m_sessionData := StdMap.assign s.m_sessionData sessionId none },
        delegate request none clientIp,
        [Action.httpRequestDelegate request.page request.getData none clientIp])
  | none => (s, none, [])

/-- The function `WebsocketServer::createHttpHeader`. The template has three tags with two
braces; the renderer of `mustache.hpp` (a header that is not among the sources) puts the
value set for a tag in its place after passing it through its escaping of values, which is
the parameter `escape`. `contentLength` is an `int32_t` and `sessionId` a `uint16_t`; the sum
`contentLength + 1` is an `int` (for `contentLength = 2 ^ 31 - 1` C++ leaves the sum
undefined, here it wraps). -/
def createHttpHeader (escape : Str → Str) (response : HttpResponse) (sessionId : Nat) : Str :=
  let contentType := response.contentType
  let contentLength := toInt32 response.content.length
  "HTTP/1.1 200 OK\ncontent-type: ".toList ++ escape contentType
    ++ "\naccept-ranges: bytes\ncontent-length: ".toList
    ++ escape (to_string (toInt32 (contentLength + 1)))
    ++ "\ncache-control: no-store\nconnection: keep-alive\nset-cookie: sessionId=".toList
    ++ escape (to_string (sessionId % 65536 : Nat))
    ++ "\n\n".toList

/-- The `for` loop of `callbackHttp` over the segments of the `Cookie` header. In its body
the source splits `cookiesStr`, the whole header, and makes no use of the loop variable
`cookieStr`. -/
def parseCookies (cookiesStr : Str) : StdMap Str Str :=
  (split cookiesStr ';').foldl
    (fun cookies _cookieStr =>
      match split cookiesStr '=' with
      | [key, value] => StdMap.assign cookies key value
      | _ => cookies)
    []

/-- The body of the `while` loop of `callbackHttp` over the fragments of the query string,
for the fragment `getDataStr` that was copied into `buf`. -/
def getDataStep (getData : StdMap Str Str) (getDataStr : Str) : StdMap Str Str :=
  match split getDataStr '=' with
  | [key, value] => StdMap.assign getData key value
  | _ => getData

/-- The `while` loop of `callbackHttp` over the fragments of the query string: `fuel` bounds
the number of iterations, `n` and `getData` are the loop variables. -/
def getDataLoop (uriArgs : List Str) : Nat → Nat → StdMap Str Str → StdMap Str Str
  | 0, _, getData => getData
  | fuel + 1, n, getData =>
    if (lws_hdr_copy_fragment uriArgs 256 n).1 > 0 then
      getDataLoop uriArgs fuel (n + 1)
        (getDataStep getData (lws_hdr_copy_fragment uriArgs 256 n).2)
    else getData

/-- The query map `getData` that `callbackHttp` builds. The loop ends at the latest when `n`
reaches the number of fragments, so `uriArgs.length + 1` iterations are always enough
(`getDataLoop_eq`). -/
def parseGetData (uriArgs : List Str) : StdMap Str Str :=
  getDataLoop uriArgs (uriArgs.length + 1) 0 []

/-- The name of the session cookie. -/
def sessionIdKey : Str := "sessionId".toList

/-- What a call of `callbackHttp` leaves behind: its return value, the server, the
per-connection memory and the actions, in order. -/
structure HttpOutcome where
  result : Int
  server : WebsocketServer
  clientData : ClientData
  actions : List Action
deriving DecidableEq, Repr

/-- The reasons `callbackHttp` tells apart; `http` carries the raw URI (`in`, `len`). -/
inductive HttpReason where
  | http (uri : Str)
  | httpWriteable
  | httpBody (body : Str)
  | httpDropProtocol
  | httpFileCompletion
  | other
deriving DecidableEq, Repr

/-- The part of `callbackHttp` for `LWS_CALLBACK_HTTP` that reads the cookies and settles the
session id (`uint16_t sessionId`): the id and the server after it. `rnd` is the number
`dist(rng)` draws. An exception of `std::stoi` leaves the function. -/
def resolveSessionId (rnd : Nat) (wsi : Wsi) (s : WebsocketServer) :
    Except Fault (Nat × WebsocketServer) :=
  let cookies : StdMap Str Str :=
    if (lws_hdr_copy wsi.cookie 256).1 > 0 then parseCookies (lws_hdr_copy wsi.cookie 256).2
    else []
  if StdMap.count cookies sessionIdKey ≠ 0 then
    match stoi ((StdMap.get? cookies sessionIdKey).getD []) with
    | Except.ok v => Except.ok (toUInt16 v, s)
    | Except.error e => Except.error e
  else
    Except.ok (toUInt16 rnd, createSessionData s (toUInt16 rnd))

/-- The part of `callbackHttp` for `LWS_CALLBACK_HTTP` that follows: the query string, the
request object, the POST token, the delegate and the header of the response. `actions` are
the actions so far. -/
def callbackHttpRespond (escape : Str → Str) (m_httpRequestDelegate : Option HttpRequestDelegate)
    (wsi : Wsi) (s : WebsocketServer) (clientData : ClientData) (page : Str)
    (actions : List Action) (sessionId : Nat) : HttpOutcome :=
  let getData := parseGetData wsi.uriArgs
  let request : HttpRequest := ⟨getData, page⟩
  let clientData := { clientData with httpRequest := some request, sessionId := sessionId }
  if lws_hdr_total_length wsi.postUri ≠ 0 then
    if (lws_hdr_copy wsi.postUri 256).1 < 0 then ⟨-1, s, clientData, actions⟩
    else ⟨0, s, clientData, actions⟩
  else
    match delegateRequestedHttp m_httpRequestDelegate s request wsi.peer sessionId with
    | (s, none, called) =>
      ⟨-1, s, { clientData with httpResponse := none },
        actions ++ called ++ [Action.returnHttpStatus 415 (some "Unknown request".toList)]⟩
    | (s, some response, called) =>
      let HEADER := createHttpHeader escape response sessionId
      let LEN := toUInt32 HEADER.length
      let written := actions ++ called ++ [Action.writeHttpHeaders (HEADER.take LEN)]
      if wsi.writeResult < 0 then
        ⟨-1, s, { clientData with httpResponse := some response }, written⟩
      else
        ⟨0, s, { clientData with httpResponse := some response },
          written ++ [Action.callbackOnWritable]⟩

/-- The part of `callbackHttp` for `LWS_CALLBACK_HTTP` from the cookies on, which the function
reaches unless it has returned at the check of the URI. -/
def callbackHttpRequest (escape : Str → Str) (m_httpRequestDelegate : Option HttpRequestDelegate)
    (rnd : Nat) (wsi : Wsi) (s : WebsocketServer) (clientData : ClientData) (page : Str)
    (actions : List Action) : Except Fault HttpOutcome :=
  match resolveSessionId rnd wsi s with
  | Except.error e => Except.error e
  | Except.ok (sessionId, s) =>
    Except.ok
      (callbackHttpRespond escape m_httpRequestDelegate wsi s clientData page actions sessionId)

/-- The function `WebsocketServer::callbackHttp`. -/
def callbackHttp (escape : Str → Str) (m_httpRequestDelegate : Option HttpRequestDelegate)
    (rnd : Nat) (wsi : Wsi) (s : WebsocketServer) (clientData : ClientData)
    (reason : HttpReason) : Except Fault HttpOutcome :=
  match reason with
  | HttpReason.http uri =>
    if uri.length < 1 then
      if wsi.transactionCompleted ≠ 0 then
        Except.ok ⟨-1, s, clientData,
          [Action.returnHttpStatus 400 none, Action.httpTransactionCompleted]⟩
      else
        callbackHttpRequest escape m_httpRequestDelegate rnd wsi s clientData uri
          [Action.returnHttpStatus 400 none, Action.httpTransactionCompleted]
    else
      callbackHttpRequest escape m_httpRequestDelegate rnd wsi s clientData uri []
  | HttpReason.httpWriteable =>
    match clientData.httpResponse with
    | some response =>
      let CONTENT := response.content ++ ['\n']
      let LEN := toUInt32 CONTENT.length
      Except.ok ⟨-1, s, clientData, [Action.writeHttp (CONTENT.take LEN)]⟩
    | none => Except.error Fault.nullDereference
  | HttpReason.httpBody body => Except.ok ⟨0, s, clientData, [Action.notice body]⟩
  | HttpReason.httpDropProtocol => Except.ok ⟨0, s, clientData, []⟩
  | HttpReason.httpFileCompletion => Except.ok ⟨-1, s, clientData, []⟩
  | HttpReason.other => Except.ok ⟨0, s, clientData, []⟩

/-- The escaping of values that the Mustache template language prescribes for a tag with two
braces: `&`, `<`, `>`, the double and the single quote are replaced by HTML entities, every
other character stays. It is the `escape` of the examples. -/
def htmlEscape (text : Str) : Str :=
  text.flatMap fun c =>
    if c = '&' then "&amp;".toList
    else if c = '<' then "&lt;".toList
    else if c = '>' then "&gt;".toList
    else if c = '"' then "&quot;".toList
    else if c = '\'' then "&apos;".toList
    else [c]

/-- A tokeniser by recursion on the text, equal to `split` (`split_eq_tokens`): the text
before the first delimiter, then the tokens of what follows it. -/
def tokens (d : Char) : Str → List Str
  | [] => [[]]
  | c :: cs =>
    if c = d then [] :: tokens d cs
    else
      match tokens d cs with
      | t :: ts => (c :: t) :: ts
      | [] => [[c]]

/-! ## Notions of the specification -/

/-- A segment of the `Cookie` header is a pair with the key `sessionId`: it splits on `=`
into exactly two parts and the first one is `sessionId`. -/
def isSessionIdPair (segment : Str) : Bool :=
  match split segment '=' with
  | [key, _] => decide (key = sessionIdKey)
  | _ => false

/-- The `Cookie` header holds a pair with the key `sessionId`: one of its segments
between `;` is such a pair. -/
def holdsSessionIdPair (cookiesStr : Str) : Bool :=
  (split cookiesStr ';').any isSessionIdPair

/-- A body of `2 ^ 31` bytes. -/
@[irreducible] def body2GiB : Str := List.replicate 2147483648 'x'

/-- A delegate that answers every request with the page `hi`. -/
def exampleDelegate : HttpRequestDelegate :=
  fun _ _ _ => some ⟨"text/html".toList, "hi".toList⟩

/-- A request without cookies, query string and POST token; the engine answers `0` to
`lws_http_transaction_completed` and `0` to `lws_write`. -/
def exampleWsi : Wsi :=
  { cookie := none
    uriArgs := []
    postUri := none
    peer := "10.0.0.1".toList
    transactionCompleted := 0
    writeResult := 0 }

/-- The per-connection memory of a new connection. -/
def exampleClientData : ClientData :=
  { httpRequest := none, httpResponse := none, sessionId := 0 }

/-- The server of the examples: a transmission unit of 4 bytes, 2 bytes of padding, the
payload `old` pending for every client but client 3. -/
def exampleServer : WebsocketServer :=
  { WebsocketServer.new 4 2 true with
    m_outputData := "old".toList
    m_outputDataSenderUserId := 3 }

/-! ## Lemmas on `split` -/

theorem findIn_none {c : Char} {l : Str} (h : findIn c l = none) : c ∉ l := by
  induction l with
  | nil => simp
  | cons x xs ih =>
    unfold findIn at h
    split at h
    · simp at h
    · rename_i hx
      simp only [Option.map_eq_none'] at h
      simp only [List.mem_cons, not_or]
      exact ⟨fun hc => hx hc.symm, ih h⟩

theorem findIn_some {c : Char} {l : Str} {i : Nat} (h : findIn c l = some i) :
    l = l.take i ++ c :: l.drop (i + 1) ∧ c ∉ l.take i ∧ i < l.length := by
  induction l generalizing i with
  | nil => simp [findIn] at h
  | cons x xs ih =>
    unfold findIn at h
    split at h
    · rename_i hx
      simp only [Option.some.injEq] at h
      subst h
      simp [hx]
    · rename_i hx
      simp only [Option.map_eq_some'] at h
      obtain ⟨j, hj, rfl⟩ := h
      obtain ⟨h1, h2, h3⟩ := ih hj
      refine ⟨?_, ?_, ?_⟩
      · simp only [List.take_succ_cons, List.drop_succ_cons, List.cons_append]
        rw [← h1]
      · simp only [List.take_succ_cons, List.mem_cons, not_or]
        exact ⟨fun hc => hx hc.symm, h2⟩
      · simp only [List.length_cons]; omega

theorem tokens_ne_nil (d : Char) (l : Str) : tokens d l ≠ [] := by
  induction l with
  | nil => simp [tokens]
  | cons c cs ih =>
    unfold tokens
    split
    · simp
    · split <;> simp

theorem tokens_of_not_mem {d : Char} {l : Str} (h : d ∉ l) : tokens d l = [l] := by
  induction l with
  | nil => rfl
  | cons c cs ih =>
    simp only [List.mem_cons, not_or] at h
    unfold tokens
    rw [if_neg (fun hc => h.1 hc.symm), ih h.2]

theorem tokens_append_cons {d : Char} {pre : Str} (post : Str) (h : d ∉ pre) :
    tokens d (pre ++ d :: post) = pre :: tokens d post := by
  induction pre with
  | nil => simp [tokens]
  | cons c cs ih =>
    simp only [List.mem_cons, not_or] at h
    simp only [List.cons_append]
    conv_lhs => unfold tokens
    rw [if_neg (fun hc => h.1 hc.symm), ih h.2]

theorem splitLoop_eq (text : Str) (d : Char) (fuel start : Nat) (toks : List Str)
    (hfuel : text.length - start < fuel) (hstart : start ≤ text.length) :
    splitLoop text d fuel start toks = toks ++ tokens d (text.drop start) := by
  induction fuel generalizing start toks with
  | zero => omega
  | succ fuel ih =>
    unfold splitLoop
    cases hf : find text d start with
    | none =>
      simp only
      unfold find at hf
      simp only [Option.map_eq_none'] at hf
      rw [tokens_of_not_mem (findIn_none hf)]
    | some e =>
      simp only
      unfold find at hf
      simp only [Option.map_eq_some'] at hf
      obtain ⟨i, hi, rfl⟩ := hf
      obtain ⟨h1, h2, h3⟩ := findIn_some hi
      have hlen : i < text.length - start := by simpa [List.length_drop] using h3
      rw [ih (i + start + 1) _ (by omega) (by omega)]
      have hsub : substr text start (i + start - start) = (text.drop start).take i := by
        simp [substr]
      have hdrop : text.drop (i + start + 1) = (text.drop start).drop (i + 1) := by
        rw [List.drop_drop]; congr 1; omega
      rw [hsub, hdrop, List.append_assoc]
      congr 1
      conv_rhs => rw [h1]
      rw [tokens_append_cons _ h2]
      rfl

/-- The loop of `split` computes the tokens of the text, whatever its fuel as long as that is
more than the length of the text. -/
theorem split_eq_tokens (text : Str) (d : Char) : split text d = tokens d text := by
  unfold split
  rw [splitLoop_eq text d _ 0 [] (by omega) (by omega)]
  simp

theorem tokens_cons_cases {d : Char} {l t : Str} {ts : List Str} (h : tokens d l = t :: ts) :
    (ts = [] ∧ l = t ∧ d ∉ t) ∨ (∃ rest, l = t ++ d :: rest ∧ tokens d rest = ts ∧ d ∉ t) := by
  induction l generalizing t ts with
  | nil =>
    simp only [tokens, List.cons.injEq] at h
    left
    exact ⟨h.2.symm, h.1, by simp [← h.1]⟩
  | cons c cs ih =>
    unfold tokens at h
    split at h
    · rename_i hc
      simp only [List.cons.injEq] at h
      right
      exact ⟨cs, by simp [← h.1, hc], h.2, by simp [← h.1]⟩
    · rename_i hc
      split at h
      · rename_i t' ts' ht
        simp only [List.cons.injEq] at h
        obtain ⟨rfl, rfl⟩ := h
        rcases ih ht with ⟨h1, h2, h3⟩ | ⟨rest, h1, h2, h3⟩
        · left
          refine ⟨h1, by rw [h2], ?_⟩
          simp only [List.mem_cons, not_or]
          exact ⟨fun hd => hc hd.symm, h3⟩
        · right
          refine ⟨rest, by rw [h1]; rfl, h2, ?_⟩
          simp only [List.mem_cons, not_or]
          exact ⟨fun hd => hc hd.symm, h3⟩
      · rename_i ht
        exact absurd ht (tokens_ne_nil d cs)

theorem tokens_pair {d : Char} {l k v : Str} (h : tokens d l = [k, v]) :
    l = k ++ d :: v ∧ d ∉ k ∧ d ∉ v := by
  rcases tokens_cons_cases h with ⟨h1, _, _⟩ | ⟨rest, h1, h2, h3⟩
  · simp at h1
  · rcases tokens_cons_cases h2 with ⟨_, h5, h6⟩ | ⟨rest2, _, h5, _⟩
    · subst h5
      exact ⟨h1, h3, h6⟩
    · exact absurd h5 (tokens_ne_nil d rest2)

theorem payload4GiB_length : payload4GiB.length = 4294967295 := by
  unfold payload4GiB
  exact List.length_replicate _ _

theorem bytesAt_memcpy {dst src b : List Char} {off n : Nat}
    (h : memcpy dst off src n = some b) (hn : src.length = n) : bytesAt b off n = src := by
  unfold memcpy at h
  split at h
  · simp only [Option.some.injEq] at h
    subst h
    have h1 : (List.take off dst).length = off := by
      simp [List.length_take]; omega
    unfold bytesAt
    rw [List.append_assoc, List.drop_left' h1, ← hn, List.take_of_length_le (le_refl _),
      List.take_left' rfl]
  · simp at h

theorem memcpy_length {dst src b : List Char} {off n : Nat}
    (h : memcpy dst off src n = some b) (hn : src.length = n) : b.length = dst.length := by
  unfold memcpy at h
  split at h
  · simp only [Option.some.injEq] at h
    subst h
    simp [List.length_take, List.length_drop]
    omega
  · simp at h

/-- A broadcast on a server with a context whose `LEN` is within `LIMIT` is taken. -/
theorem sendData_taken (s : WebsocketServer) (data : Str) (S : Int)
    (hctx : s.m_context = true) (hlen : toUInt32 (data.length + 1) ≤ LIMIT s) :
    sendDataToAllOtherClients s data S =
      ({ s with m_outputData := data, m_outputDataSenderUserId := S },
        [Action.cancelService, Action.callbackOnWritableAllProtocol]) := by
  have h : ¬ (toUInt32 (data.length + 1) > toUInt32 s.tx_packet_size) := by
    simpa [LIMIT] using hlen
  simp [sendDataToAllOtherClients, LIMIT, hctx, h]

/-- A broadcast on a server with a context whose `LEN` is over `LIMIT` is turned away: the
pending payload stays, the excluded sender is the new one. -/
theorem sendData_refused (s : WebsocketServer) (data : Str) (S : Int)
    (hctx : s.m_context = true) (hlen : LIMIT s < toUInt32 (data.length + 1)) :
    sendDataToAllOtherClients s data S =
      ({ s with m_outputDataSenderUserId := S },
        [Action.cerrTooMuchData (toUInt32 (data.length + 1)) (LIMIT s)]) := by
  have h : toUInt32 (data.length + 1) > toUInt32 s.tx_packet_size := by
    simpa [LIMIT] using hlen
  simp [sendDataToAllOtherClients, LIMIT, hctx, h]

theorem toUInt32_of_lt {n : Nat} (h : n < 2 ^ 32) : toUInt32 n = n := by
  unfold toUInt32
  exact Nat.mod_eq_of_lt h

theorem LIMIT_lt (s : WebsocketServer) : LIMIT s < 2 ^ 32 := by
  unfold LIMIT toUInt32
  exact Nat.mod_lt _ (by norm_num)

/-- A broadcast whose length plus one is within `LIMIT` is taken. -/
theorem sendData_accepted (s : WebsocketServer) (data : Str) (S : Int)
    (hctx : s.m_context = true) (hlen : data.length + 1 ≤ LIMIT s) :
    sendDataToAllOtherClients s data S =
      ({ s with m_outputData := data, m_outputDataSenderUserId := S },
        [Action.cancelService, Action.callbackOnWritableAllProtocol]) := by
  apply sendData_taken s data S hctx
  rw [toUInt32_of_lt (lt_of_le_of_lt hlen (LIMIT_lt s))]
  exact hlen

/-- A drain of a pending payload that fits the transmission buffer: the payload is in the
buffer after the padding, the rest of the state is as before. -/
theorem getOutputDataBuffer_fits (LWS_PRE : Nat) (s : WebsocketServer)
    (hbuf : s.BufferAllocated LWS_PRE) (hlen : s.m_outputData.length ≤ LIMIT s) :
    ∃ buffer, getOutputDataBuffer LWS_PRE s
        = some ({ s with m_outputDataBuffer := buffer }, s.m_outputData.length)
      ∧ bytesAt buffer LWS_PRE s.m_outputData.length = s.m_outputData
      ∧ buffer.length = s.m_outputDataBuffer.length := by
  unfold WebsocketServer.BufferAllocated at hbuf
  have hle : LWS_PRE + s.m_outputData.length ≤ s.m_outputDataBuffer.length := by omega
  have hm : memcpy s.m_outputDataBuffer LWS_PRE s.m_outputData s.m_outputData.length
      = some (s.m_outputDataBuffer.take LWS_PRE ++ s.m_outputData.take s.m_outputData.length
          ++ s.m_outputDataBuffer.drop (LWS_PRE + s.m_outputData.length)) := by
    simp [memcpy, hle]
  refine ⟨_, ?_, bytesAt_memcpy hm rfl, memcpy_length hm rfl⟩
  unfold getOutputDataBuffer
  simp only [hm]

theorem broadcastAll_accepted (s : WebsocketServer) (bs : List (Str × Int)) (b : Str × Int)
    (hctx : s.m_context = true) (hall : ∀ x ∈ bs ++ [b], x.1.length + 1 ≤ LIMIT s) :
    broadcastAll s (bs ++ [b])
      = { s with m_outputData := b.1, m_outputDataSenderUserId := b.2 } := by
  induction bs generalizing s with
  | nil =>
    have hb : b.1.length + 1 ≤ LIMIT s := hall b (by simp)
    simp [broadcastAll, sendData_accepted s b.1 b.2 hctx hb]
  | cons x bs ih =>
    have hx : x.1.length + 1 ≤ LIMIT s := hall x (by simp)
    have hstep : broadcastAll s (x :: bs ++ [b])
        = broadcastAll (sendDataToAllOtherClients s x.1 x.2).1 (bs ++ [b]) := by
      simp [broadcastAll]
    rw [hstep, sendData_accepted s x.1 x.2 hctx hx]
    exact ih _ hctx (fun y hy => hall y (by simp [List.mem_append] at hy ⊢; tauto))

theorem drain_fits (LWS_PRE : Nat) (s : WebsocketServer)
    (hbuf : s.BufferAllocated LWS_PRE) (hlen : s.m_outputData.length ≤ LIMIT s) :
    ∃ buffer, drain LWS_PRE s
        = some ({ s with m_outputDataBuffer := buffer }, s.m_outputData, s.m_outputData.length)
      ∧ buffer.length = s.m_outputDataBuffer.length := by
  obtain ⟨buffer, hget, hbytes, hl⟩ := getOutputDataBuffer_fits LWS_PRE s hbuf hlen
  refine ⟨buffer, ?_, hl⟩
  unfold drain
  simp only [hget, hbytes]

theorem drains_fits (LWS_PRE : Nat) (k : Nat) (s : WebsocketServer)
    (hbuf : s.BufferAllocated LWS_PRE) (hlen : s.m_outputData.length ≤ LIMIT s) :
    ∃ buffer, drains LWS_PRE k s
        = some ({ s with m_outputDataBuffer := buffer },
            List.replicate k (s.m_outputData, s.m_outputData.length))
      ∧ buffer.length = s.m_outputDataBuffer.length := by
  induction k generalizing s with
  | zero => exact ⟨s.m_outputDataBuffer, rfl, rfl⟩
  | succ k ih =>
    obtain ⟨b1, hd, hl1⟩ := drain_fits LWS_PRE s hbuf hlen
    have hbuf1 : WebsocketServer.BufferAllocated { s with m_outputDataBuffer := b1 } LWS_PRE := by
      unfold WebsocketServer.BufferAllocated at hbuf ⊢
      simpa [LIMIT, hl1] using hbuf
    obtain ⟨b2, hds, hl2⟩ := ih { s with m_outputDataBuffer := b1 } hbuf1 hlen
    refine ⟨b2, ?_, by simpa [hl1] using hl2⟩
    simp only [drains, hd, hds, List.replicate_succ]

theorem getOutputDataBuffer_overflow (LWS_PRE n : Nat) (s : WebsocketServer)
    (hlen : s.m_outputData.length = n) (h : s.m_outputDataBuffer.length < LWS_PRE + n) :
    getOutputDataBuffer LWS_PRE s = none := by
  have h2 : ¬ (LWS_PRE + s.m_outputData.length ≤ s.m_outputDataBuffer.length) := by omega
  simp [getOutputDataBuffer, memcpy, h2]

/-- What `sendDataToAllOtherClients` does with a payload of fewer than `2 ^ 32 - 1` bytes on a
server with a context: within the transmission unit (the boundary included) the payload is
staged and the engine is woken, one byte over it the call only prints the diagnostic and
the pending payload stays. -/
theorem sendData_below_wraparound (s : WebsocketServer) (data : Str) (S : Int)
    (hctx : s.m_context = true) (hsmall : data.length + 1 < 2 ^ 32) :
    (data.length + 1 ≤ LIMIT s →
        sendDataToAllOtherClients s data S
          = ({ s with m_outputData := data, m_outputDataSenderUserId := S },
              [Action.cancelService, Action.callbackOnWritableAllProtocol]))
      ∧ (LIMIT s < data.length + 1 →
        sendDataToAllOtherClients s data S
          = ({ s with m_outputDataSenderUserId := S },
              [Action.cerrTooMuchData (data.length + 1) (LIMIT s)])) := by
  constructor
  · exact sendData_accepted s data S hctx
  · intro h
    have := sendData_refused s data S hctx (by rw [toUInt32_of_lt hsmall]; exact h)
    rw [toUInt32_of_lt hsmall] at this
    exact this

/-! ## Lemmas on the client counter -/

theorem afterConnections_count (LWS_PRE : Nat) (d : Bool) (s : WebsocketServer) (n : Nat) :
    (afterConnections LWS_PRE d s n).m_clientCount = (s.m_clientCount + n) % 2 ^ 32
      ∨ n = 0 := by
  induction n with
  | zero => right; rfl
  | succ n ih =>
    left
    simp only [afterConnections, callbackData, loginUser, toUInt32]
    rcases ih with h | h
    · rw [h]; omega
    · subst h; simp [afterConnections]

theorem nthClientId_eq (txPacketSize LWS_PRE : Nat) (d : Bool) (n : Nat) (hn : 1 ≤ n) :
    nthClientId txPacketSize LWS_PRE d n = some (toInt32 ((n % 2 ^ 32 : Nat) : Int)) := by
  simp only [nthClientId, callbackData, loginUser, toUInt32]
  rcases afterConnections_count LWS_PRE d
      (WebsocketServer.new txPacketSize LWS_PRE true) (n - 1) with h | h
  · rw [h]
    have : ((WebsocketServer.new txPacketSize LWS_PRE true).m_clientCount + (n - 1)) % 2 ^ 32
        + 1 = (n - 1) % 2 ^ 32 + 1 := by simp [WebsocketServer.new]
    rw [this]
    have h2 : ((n - 1) % 2 ^ 32 + 1) % 2 ^ 32 = n % 2 ^ 32 := by omega
    rw [h2]
  · have h1 : n = 1 := by omega
    subst h1
    simp [afterConnections, WebsocketServer.new]

theorem toInt32_of_lt (n : Nat) (h : n < 2 ^ 31) : toInt32 (n : Int) = n := by
  unfold toInt32
  have h1 : (n : Int) % 2 ^ 32 = n := by omega
  rw [h1]
  have h2 : (n : Int) < 2 ^ 31 := by omega
  rw [if_pos h2]

theorem toInt32_injOn (a b : Nat) (ha : a < 2 ^ 32) (hb : b < 2 ^ 32)
    (h : toInt32 (a : Int) = toInt32 (b : Int)) : a = b := by
  unfold toInt32 at h
  have h1 : (a : Int) % 2 ^ 32 = a := by omega
  have h2 : (b : Int) % 2 ^ 32 = b := by omega
  rw [h1, h2] at h
  split at h <;> split at h <;> omega

/-! ## The size of the transmission buffer is an invariant -/

theorem bufferAllocated_new (txPacketSize LWS_PRE : Nat) (context : Bool) :
    (WebsocketServer.new txPacketSize LWS_PRE context).BufferAllocated LWS_PRE := by
  simp [WebsocketServer.BufferAllocated, WebsocketServer.new, LIMIT]

theorem bufferAllocated_sendData (s : WebsocketServer) (data : Str) (S : Int) (LWS_PRE : Nat)
    (h : s.BufferAllocated LWS_PRE) :
    (sendDataToAllOtherClients s data S).1.BufferAllocated LWS_PRE := by
  unfold sendDataToAllOtherClients
  dsimp only
  split
  · exact h
  · split
    · exact h
    · exact h

theorem bufferAllocated_getOutputDataBuffer (s s' : WebsocketServer) (LWS_PRE len : Nat)
    (h : s.BufferAllocated LWS_PRE) (hget : getOutputDataBuffer LWS_PRE s = some (s', len)) :
    s'.BufferAllocated LWS_PRE := by
  unfold getOutputDataBuffer at hget
  dsimp only at hget
  split at hget
  · rename_i buffer hm
    simp only [Option.some.injEq, Prod.mk.injEq] at hget
    obtain ⟨rfl, _⟩ := hget
    have hl := memcpy_length hm rfl
    unfold WebsocketServer.BufferAllocated at h ⊢
    simpa [LIMIT, hl] using h
  · cases hget

theorem bufferAllocated_loginUser (s : WebsocketServer) (LWS_PRE : Nat)
    (h : s.BufferAllocated LWS_PRE) : (loginUser s).1.BufferAllocated LWS_PRE := h

theorem bufferAllocated_createSessionData (s : WebsocketServer) (sessionId LWS_PRE : Nat)
    (h : s.BufferAllocated LWS_PRE) : (createSessionData s sessionId).BufferAllocated LWS_PRE :=
  h

/-! ## Lemmas on the HTTP pipeline -/

theorem body2GiB_length : body2GiB.length = 2147483648 := by
  unfold body2GiB
  exact List.length_replicate _ _

theorem StdMap.get?_assign {κ ν : Type} [DecidableEq κ] (m : StdMap κ ν) (k k' : κ) (v : ν) :
    StdMap.get? (StdMap.assign m k v) k' = if k = k' then some v else StdMap.get? m k' := by
  induction m with
  | nil => simp [StdMap.assign, StdMap.get?]
  | cons p rest ih =>
    obtain ⟨a, b⟩ := p
    unfold StdMap.assign
    by_cases hak : a = k
    · subst hak
      simp only [if_true, StdMap.get?]
      by_cases hk : a = k' <;> simp [hk]
    · simp only [hak, if_false, StdMap.get?, ih]
      by_cases hk : k = k'
      · subst hk; simp [hak]
      · simp [hk]

theorem StdMap.assign_single {κ ν : Type} [DecidableEq κ] (k : κ) (v : ν) :
    StdMap.assign [(k, v)] k v = [(k, v)] := by
  simp [StdMap.assign]

/-- What the loop over the segments of the `Cookie` header computes: the one entry that the
split of the whole header on `=` gives, when that split has exactly two parts. -/
theorem parseCookies_eq (cookiesStr : Str) :
    parseCookies cookiesStr
      = match tokens '=' cookiesStr with
        | [key, value] => [(key, value)]
        | _ => [] := by
  unfold parseCookies
  rw [split_eq_tokens, split_eq_tokens]
  have hne := tokens_ne_nil ';' cookiesStr
  generalize tokens ';' cookiesStr = segs at hne
  generalize tokens '=' cookiesStr = parts
  have key : ∀ (f : StdMap Str Str → StdMap Str Str) (acc : StdMap Str Str) (l : List Str),
      f (f acc) = f acc → l ≠ [] → l.foldl (fun c _ => f c) acc = f acc := by
    intro f acc l hf hl
    induction l generalizing acc with
    | nil => exact absurd rfl hl
    | cons x xs ih =>
      cases xs with
      | nil => rfl
      | cons y ys =>
        rw [List.foldl_cons, ih (f acc) (by rw [hf]; exact hf) (by simp), hf]
  match parts with
  | [] => exact key (fun c => c) [] segs rfl hne
  | [_] => exact key (fun c => c) [] segs rfl hne
  | [k, v] =>
    exact key (fun c => StdMap.assign c k v) [] segs (by simp [StdMap.assign]) hne
  | _ :: _ :: _ :: _ => exact key (fun c => c) [] segs rfl hne

theorem sessionIdKey_no_semicolon : ';' ∉ sessionIdKey := by decide

theorem sessionIdKey_no_equals : '=' ∉ sessionIdKey := by decide

/-- A header that splits on `=` into `sessionId` and one more part holds a `sessionId`
pair: its first segment. -/
theorem holdsSessionIdPair_of_tokens {cookiesStr v : Str}
    (h : tokens '=' cookiesStr = [sessionIdKey, v]) : holdsSessionIdPair cookiesStr = true := by
  obtain ⟨hl, _, hv⟩ := tokens_pair h
  unfold holdsSessionIdPair
  rw [split_eq_tokens]
  cases hseg : tokens ';' cookiesStr with
  | nil => exact absurd hseg (tokens_ne_nil _ _)
  | cons t ts =>
    have hfirst : isSessionIdPair t = true := by
      rcases tokens_cons_cases hseg with ⟨_, h2, _⟩ | ⟨rest, h2, _, h4⟩
      · subst h2
        simp [isSessionIdPair, split_eq_tokens, h]
      · rw [hl] at h2
        rcases List.append_eq_append_iff.mp h2 with ⟨a, h5, h6⟩ | ⟨c, h5, h6⟩
        · cases a with
          | nil =>
            simp only [List.nil_append, List.cons.injEq] at h6
            exact absurd h6.1 (by decide)
          | cons x a =>
            simp only [List.cons_append, List.cons.injEq] at h6
            obtain ⟨rfl, h6⟩ := h6
            have hva : '=' ∉ a := by
              intro hmem
              apply hv
              rw [h6]
              simp [hmem]
            have ht : tokens '=' t = [sessionIdKey, a] := by
              rw [h5, tokens_append_cons _ sessionIdKey_no_equals, tokens_of_not_mem hva]
            simp [isSessionIdPair, split_eq_tokens, ht]
        · cases c with
          | nil =>
            simp only [List.nil_append, List.cons.injEq] at h6
            exact absurd h6.1 (by decide)
          | cons x c =>
            simp only [List.cons_append, List.cons.injEq] at h6
            obtain ⟨rfl, _⟩ := h6
            exfalso
            apply sessionIdKey_no_semicolon
            rw [h5]
            simp
    simp [hfirst]

/-- A header without a `sessionId` pair leaves no `sessionId` in the cookie map. -/
theorem count_parseCookies_of_no_pair {cookiesStr : Str}
    (h : holdsSessionIdPair cookiesStr = false) :
    StdMap.count (parseCookies cookiesStr) sessionIdKey = 0 := by
  rw [parseCookies_eq]
  split
  · rename_i key value hparts
    by_cases hk : key = sessionIdKey
    · subst hk
      rw [holdsSessionIdPair_of_tokens hparts] at h
      exact absurd h (by simp)
    · simp [StdMap.count, StdMap.get?, hk]
  · simp [StdMap.count, StdMap.get?]

theorem delegateRequestedHttp_of_entry (delegate : Option HttpRequestDelegate)
    (s : WebsocketServer) (request : HttpRequest) (clientIp : Str) (sessionId : Nat)
    (sessionData : Option SessionData)
    (h : StdMap.get? s.m_sessionData sessionId = some sessionData) :
    delegateRequestedHttp delegate s request clientIp sessionId
      = (s,
          (match delegate with
            | some f => f request sessionData clientIp
            | none => none),
          (match delegate with
            | some _ =>
              [Action.httpRequestDelegate request.page request.getData sessionData clientIp]
            | none => [])) := by
  unfold delegateRequestedHttp
  cases delegate with
  | none => rfl
  | some f => simp only [h]

theorem toUInt16_lt (z : Int) : toUInt16 z < 65536 := by
  unfold toUInt16
  omega

theorem count_cookies_of_no_pair (wsi : Wsi)
    (hcookie : ∀ cookiesStr, wsi.cookie = some cookiesStr
      → holdsSessionIdPair cookiesStr = false) :
    StdMap.count
        (if (lws_hdr_copy wsi.cookie 256).1 > 0 then parseCookies (lws_hdr_copy wsi.cookie 256).2
          else [])
        sessionIdKey = 0 := by
  cases hc : wsi.cookie with
  | none => simp [lws_hdr_copy, StdMap.count, StdMap.get?]
  | some h =>
    unfold lws_hdr_copy
    by_cases hlong : h.length ≥ 256
    · simp [hlong, StdMap.count, StdMap.get?]
    · simp only [hlong, if_false]
      split
      · exact count_parseCookies_of_no_pair (hcookie h hc)
      · simp [StdMap.count, StdMap.get?]

theorem createSessionData_entry (s : WebsocketServer) (sessionId : Nat) :
    StdMap.get? (createSessionData s sessionId).m_sessionData sessionId
      = some (some ⟨sessionId⟩) := by
  simp [createSessionData, StdMap.get?_assign]

theorem resolveSessionId_fresh (rnd : Nat) (wsi : Wsi) (s : WebsocketServer)
    (hcookie : ∀ cookiesStr, wsi.cookie = some cookiesStr
      → holdsSessionIdPair cookiesStr = false) :
    resolveSessionId rnd wsi s
      = Except.ok (toUInt16 rnd, createSessionData s (toUInt16 rnd)) := by
  unfold resolveSessionId
  simp only [count_cookies_of_no_pair wsi hcookie, ne_eq, not_true_eq_false, if_false]

/-- The headers `callbackHttpRespond` writes are those of the response of the delegate for the
session id it is given, and it leaves the server as it is when the session map has an entry
for that id. -/
theorem callbackHttpRespond_spec (escape : Str → Str)
    (delegate : Option HttpRequestDelegate) (wsi : Wsi) (s : WebsocketServer)
    (clientData : ClientData) (page : Str) (actions : List Action) (sessionId : Nat)
    (sessionData : Option SessionData)
    (hentry : StdMap.get? s.m_sessionData sessionId = some sessionData)
    (hacts : ∀ bytes, Action.writeHttpHeaders bytes ∉ actions) :
    (callbackHttpRespond escape delegate wsi s clientData page actions sessionId).server = s
      ∧ (callbackHttpRespond escape delegate wsi s clientData page actions
          sessionId).clientData.sessionId = sessionId
      ∧ ∀ bytes, Action.writeHttpHeaders bytes
            ∈ (callbackHttpRespond escape delegate wsi s clientData page actions
                sessionId).actions →
          ∃ response,
            (callbackHttpRespond escape delegate wsi s clientData page actions
              sessionId).clientData.httpResponse = some response
            ∧ bytes = (createHttpHeader escape response sessionId).take
                (toUInt32 (createHttpHeader escape response sessionId).length) := by
  unfold callbackHttpRespond
  dsimp only
  rw [delegateRequestedHttp_of_entry delegate _ _ _ _ _ hentry]
  by_cases hpost : lws_hdr_total_length wsi.postUri = 0
  · simp only [ne_eq, hpost, not_true_eq_false, if_false]
    cases delegate with
    | none =>
      refine ⟨by trivial, by trivial, ?_⟩
      intro bytes hb
      simp [hacts] at hb
    | some f =>
      simp only
      cases hresp : f ⟨parseGetData wsi.uriArgs, page⟩ sessionData wsi.peer with
      | none =>
        refine ⟨by trivial, by trivial, ?_⟩
        intro bytes hb
        simp [hacts] at hb
      | some response =>
        simp only
        by_cases hw : wsi.writeResult < 0
        · simp only [hw, if_true]
          refine ⟨by trivial, by trivial, ?_⟩
          intro bytes hb
          simp only [List.mem_append, List.mem_singleton, List.mem_cons, hacts, false_or,
            Action.writeHttpHeaders.injEq, reduceCtorEq, List.not_mem_nil, or_false] at hb
          exact ⟨response, rfl, hb⟩
        · simp only [hw, if_false]
          refine ⟨by trivial, by trivial, ?_⟩
          intro bytes hb
          simp only [List.mem_append, List.mem_singleton, List.mem_cons, hacts, false_or,
            Action.writeHttpHeaders.injEq, reduceCtorEq, List.not_mem_nil, or_false] at hb
          exact ⟨response, rfl, hb⟩
  · simp only [ne_eq, hpost, not_false_eq_true, if_true]
    by_cases hcopy : (lws_hdr_copy wsi.postUri 256).1 < 0
    · simp only [hcopy, if_true]
      exact ⟨by trivial, by trivial, fun bytes hb => absurd hb (hacts bytes)⟩
    · simp only [hcopy, if_false]
      exact ⟨by trivial, by trivial, fun bytes hb => absurd hb (hacts bytes)⟩

theorem createHttpHeader_of_length (escape : Str → Str) (response : HttpResponse)
    (sessionId n : Nat) (h : response.content.length = n) :
    createHttpHeader escape response sessionId
      = "HTTP/1.1 200 OK\ncontent-type: ".toList ++ escape response.contentType
        ++ "\naccept-ranges: bytes\ncontent-length: ".toList
        ++ escape (to_string (toInt32 (toInt32 (n : Int) + 1)))
        ++ "\ncache-control: no-store\nconnection: keep-alive\nset-cookie: sessionId=".toList
        ++ escape (to_string (sessionId % 65536 : Nat))
        ++ "\n\n".toList := by
  unfold createHttpHeader
  rw [h]

theorem callbackHttp_httpWriteable (escape : Str → Str)
    (delegate : Option HttpRequestDelegate) (rnd : Nat) (wsi : Wsi) (s : WebsocketServer)
    (clientData : ClientData) (response : HttpResponse) (n : Nat)
    (hresp : clientData.httpResponse = some response)
    (hlen : response.content.length = n) (hn : n + 1 < 2 ^ 32) :
    callbackHttp escape delegate rnd wsi s clientData HttpReason.httpWriteable
      = Except.ok ⟨-1, s, clientData, [Action.writeHttp (response.content ++ ['\n'])]⟩ := by
  unfold callbackHttp
  simp only [hresp]
  have hl : (response.content ++ ['\n']).length = n + 1 := by simp [hlen]
  rw [hl, toUInt32_of_lt hn, List.take_of_length_le (by omega)]

/-- The header of a response whose body is shorter than `2 ^ 31 - 1` bytes: the content
length is the length of the body plus one. -/
theorem createHttpHeader_short_body (escape : Str → Str) (response : HttpResponse)
    (sessionId : Nat) (hlen : response.content.length + 1 < 2 ^ 31)
    (hid : sessionId < 65536) :
    createHttpHeader escape response sessionId
      = "HTTP/1.1 200 OK\ncontent-type: ".toList ++ escape response.contentType
        ++ "\naccept-ranges: bytes\ncontent-length: ".toList
        ++ escape (Nat.toDigits 10 (response.content.length + 1))
        ++ "\ncache-control: no-store\nconnection: keep-alive\nset-cookie: sessionId=".toList
        ++ escape (Nat.toDigits 10 sessionId)
        ++ "\n\n".toList := by
  rw [createHttpHeader_of_length escape response sessionId _ rfl]
  have h1 : toInt32 ((response.content.length : Nat) : Int) = response.content.length :=
    toInt32_of_lt _ (by omega)
  have h2 : toInt32 (((response.content.length : Nat) : Int) + 1)
      = ((response.content.length + 1 : Nat) : Int) := by
    have := toInt32_of_lt (response.content.length + 1) hlen
    push_cast at this ⊢
    exact this
  have h3 : ∀ k : Nat, to_string (k : Int) = Nat.toDigits 10 k := by
    intro k
    unfold to_string
    have : ¬ ((k : Int) < 0) := by omega
    rw [if_neg this, Int.toNat_ofNat]
  rw [h1, h2, h3, h3, Nat.mod_eq_of_lt hid]

/-- An empty raw URI is answered with status 400 and nothing else when
`lws_http_transaction_completed` returns a value other than `0`. -/
theorem callbackHttp_empty_uri_completed (escape : Str → Str)
    (delegate : Option HttpRequestDelegate) (rnd : Nat) (wsi : Wsi) (s : WebsocketServer)
    (clientData : ClientData) (h : wsi.transactionCompleted ≠ 0) :
    callbackHttp escape delegate rnd wsi s clientData (HttpReason.http [])
      = Except.ok ⟨-1, s, clientData,
          [Action.returnHttpStatus 400 none, Action.httpTransactionCompleted]⟩ := by
  simp [callbackHttp, h]

/-- A `Cookie` header that as a whole splits on `=` into `sessionId` and a value `std::stoi`
reads gives the request that value as a `uint16_t`, and no session is created. -/
theorem resolveSessionId_of_single_pair (rnd : Nat) (wsi : Wsi) (s : WebsocketServer)
    (cookiesStr value : Str) (z : Int) (hc : wsi.cookie = some cookiesStr)
    (hpos : 0 < cookiesStr.length) (hfit : cookiesStr.length < 256)
    (hsplit : split cookiesStr '=' = [sessionIdKey, value]) (hz : stoi value = Except.ok z) :
    resolveSessionId rnd wsi s = Except.ok (toUInt16 z, s) := by
  have hcopy : lws_hdr_copy wsi.cookie 256 = ((cookiesStr.length : Int), cookiesStr) := by
    unfold lws_hdr_copy
    rw [hc]
    simp only [ge_iff_le]
    rw [if_neg (by omega)]
  have hcookies : parseCookies cookiesStr = [(sessionIdKey, value)] := by
    rw [parseCookies_eq, ← split_eq_tokens, hsplit]
  have hgt : ((cookiesStr.length : Nat) : Int) > 0 := by omega
  unfold resolveSessionId
  simp only [hcopy, hgt, if_true, hcookies, StdMap.count, StdMap.get?, Option.isSome_some,
    ne_eq, one_ne_zero, not_false_eq_true, Option.getD_some, hz]

/-- C1, the code at the failing input: on a server that holds the pending payload `old` with
the excluded sender 3 and whose transmission unit is 4, the broadcast of `hello` (length plus
one is 6) for the sender 7 is turned away with the diagnostic and the pending payload is
still `old`, but the excluded sender of the pending record is 7 and no longer 3. -/
theorem refused_broadcast_overwrites_excluded_sender :
    exampleServer.m_outputData = "old".toList
      ∧ exampleServer.m_outputDataSenderUserId = 3
      ∧ LIMIT exampleServer < "hello".toList.length + 1
      ∧ sendDataToAllOtherClients exampleServer "hello".toList 7
          = ({ exampleServer with m_outputDataSenderUserId := 7 },
              [Action.cerrTooMuchData 6 4])
      ∧ (sendDataToAllOtherClients exampleServer "hello".toList 7).1.m_outputData
          = "old".toList
      ∧ (sendDataToAllOtherClients exampleServer "hello".toList 7).1.m_outputDataSenderUserId
          ≠ 3 := by
  decide

/-- C2: after a broadcast of a payload whose length plus one is within the transmission unit,
on a server with an engine context, the server-writable event of the connection whose
`clientId` is the sender writes nothing, and the server-writable event of a connection with
any other `clientId` writes exactly the payload. -/
theorem exclusion_correctness (LWS_PRE : Nat) (d : Bool) (s : WebsocketServer) (payload : Str)
    (S : Int) (hctx : s.m_context = true) (hbuf : s.BufferAllocated LWS_PRE)
    (hlen : payload.length + 1 ≤ LIMIT s) :
    callbackData LWS_PRE d (sendDataToAllOtherClients s payload S).1
        DataReason.serverWriteable S
      = some ((sendDataToAllOtherClients s payload S).1, S, [])
    ∧ ∀ userId : Int, userId ≠ S →
        ∃ s', callbackData LWS_PRE d (sendDataToAllOtherClients s payload S).1
            DataReason.serverWriteable userId
          = some (s', userId, [Action.writeBinary payload])
          ∧ s'.m_outputData = payload ∧ s'.m_outputDataSenderUserId = S := by
  rw [sendData_accepted s payload S hctx hlen]
  constructor
  · simp [callbackData, getOutputDataSenderUserId]
  · intro userId hne
    have hbuf' : WebsocketServer.BufferAllocated
        { s with m_outputData := payload, m_outputDataSenderUserId := S } LWS_PRE := hbuf
    have hlen' : (({ s with m_outputData := payload, m_outputDataSenderUserId := S } :
        WebsocketServer).m_outputData).length
          ≤ LIMIT { s with m_outputData := payload, m_outputDataSenderUserId := S } := by
      show payload.length ≤ LIMIT s
      omega
    obtain ⟨buffer, hget, hbytes, _⟩ := getOutputDataBuffer_fits LWS_PRE _ hbuf' hlen'
    refine ⟨{ s with m_outputData := payload, m_outputDataSenderUserId := S,
                     m_outputDataBuffer := buffer }, ?_, rfl, rfl⟩
    have hne' : ¬ (S = userId) := fun h => hne h.symm
    simp only [callbackData, getOutputDataSenderUserId, ne_eq, hne', not_false_eq_true,
      if_true, hget]
    simp only [hbytes]

/-- C2 at a concrete input: the payload `hey` for the sender 7 on the example server. -/
theorem exclusion_correctness_witness :
    exampleServer.m_context = true ∧ exampleServer.BufferAllocated 2
      ∧ "hey".toList.length + 1 ≤ LIMIT exampleServer
      ∧ callbackData 2 true (sendDataToAllOtherClients exampleServer "hey".toList 7).1
          DataReason.serverWriteable 7
        = some ((sendDataToAllOtherClients exampleServer "hey".toList 7).1, 7, [])
      ∧ ∃ s', callbackData 2 true (sendDataToAllOtherClients exampleServer "hey".toList 7).1
            DataReason.serverWriteable 5
          = some (s', 5, [Action.writeBinary "hey".toList])
          ∧ s'.m_outputData = "hey".toList ∧ s'.m_outputDataSenderUserId = 7 :=
  ⟨by decide, by decide, by decide,
    (exclusion_correctness 2 true exampleServer "hey".toList 7
      (by decide) (by decide) (by decide)).1,
    (exclusion_correctness 2 true exampleServer "hey".toList 7
      (by decide) (by decide) (by decide)).2 5 (by decide)⟩

/-- C4, the code at the failing input: a payload of `2 ^ 32 - 1` bytes is over the
transmission unit of the example server (4), yet `LEN` is `0` after the reduction to
`uint32_t`, the payload passes the check and is staged as the pending payload; the drain that
follows would copy it past the end of the transmission buffer. -/
theorem oversized_broadcast_staged_after_wraparound :
    LIMIT exampleServer < payload4GiB.length + 1
      ∧ sendDataToAllOtherClients exampleServer payload4GiB 7
          = ({ exampleServer with m_outputData := payload4GiB, m_outputDataSenderUserId := 7 },
              [Action.cancelService, Action.callbackOnWritableAllProtocol])
      ∧ getOutputDataBuffer 2
          { exampleServer with m_outputData := payload4GiB, m_outputDataSenderUserId := 7 }
          = none := by
  refine ⟨?_, ?_, ?_⟩
  · rw [payload4GiB_length]; decide
  · apply sendData_taken exampleServer payload4GiB 7 rfl
    rw [payload4GiB_length]
    have h : toUInt32 (4294967295 + 1) = 0 := by decide
    rw [h]
    exact Nat.zero_le _
  · exact getOutputDataBuffer_overflow 2 4294967295 _ payload4GiB_length (by decide)

/-- C8: after one or more broadcasts that are all within the transmission unit, every one of
`k` drains in a row gives the payload of the last broadcast, with its length, and the pending
record is still that of the last broadcast; and the drain after issuing the last broadcast
twice is the drain after issuing it once. -/
theorem mailbox_last_write_wins (LWS_PRE : Nat) (s : WebsocketServer)
    (bs : List (Str × Int)) (b : Str × Int) (k : Nat)
    (hctx : s.m_context = true) (hbuf : s.BufferAllocated LWS_PRE)
    (hall : ∀ x ∈ bs ++ [b], x.1.length + 1 ≤ LIMIT s) :
    (∃ s', drains LWS_PRE k (broadcastAll s (bs ++ [b]))
          = some (s', List.replicate k (b.1, b.1.length))
        ∧ s'.m_outputData = b.1 ∧ s'.m_outputDataSenderUserId = b.2)
      ∧ drain LWS_PRE (broadcastAll s (bs ++ [b] ++ [b]))
          = drain LWS_PRE (broadcastAll s (bs ++ [b])) := by
  have hb : b.1.length + 1 ≤ LIMIT s := hall b (by simp)
  constructor
  · rw [broadcastAll_accepted s bs b hctx hall]
    have hbuf' : WebsocketServer.BufferAllocated
        { s with m_outputData := b.1, m_outputDataSenderUserId := b.2 } LWS_PRE := hbuf
    have hlen' : (({ s with m_outputData := b.1, m_outputDataSenderUserId := b.2 } :
        WebsocketServer).m_outputData).length
          ≤ LIMIT { s with m_outputData := b.1, m_outputDataSenderUserId := b.2 } := by
      show b.1.length ≤ LIMIT s
      omega
    obtain ⟨buffer, hd, _⟩ := drains_fits LWS_PRE k _ hbuf' hlen'
    exact ⟨_, hd, rfl, rfl⟩
  · rw [broadcastAll_accepted s bs b hctx hall,
      broadcastAll_accepted s (bs ++ [b]) b hctx (by
        intro x hx
        simp only [List.mem_append, List.mem_singleton] at hx
        rcases hx with (hx | hx) | hx
        · exact hall x (by simp [hx])
        · exact hall x (by simp [hx])
        · exact hall x (by simp [hx]))]

/-- C8 at a concrete input: the broadcasts `a` (sender 1), `hey` (sender 7) and three
drains on the example server. -/
theorem mailbox_last_write_wins_witness :
    (∃ s', drains 2 3 (broadcastAll exampleServer ([("a".toList, 1)] ++ [("hey".toList, 7)]))
          = some (s', List.replicate 3 ("hey".toList, 3))
        ∧ s'.m_outputData = "hey".toList ∧ s'.m_outputDataSenderUserId = 7)
      ∧ drain 2 (broadcastAll exampleServer
            ([("a".toList, 1)] ++ [("hey".toList, 7)] ++ [("hey".toList, 7)]))
          = drain 2 (broadcastAll exampleServer ([("a".toList, 1)] ++ [("hey".toList, 7)])) :=
  mailbox_last_write_wins 2 exampleServer [("a".toList, 1)] ("hey".toList, 7) 3
    (by decide) (by decide) (by decide)

/-- C9, as stated, fails: on a fresh server the slot of the `2 ^ 31`-th connection holds
`-2147483648` and not `2 ^ 31`, and the connection number `2 ^ 32 + 1` gets the `clientId` of
the first one. -/
theorem clientId_wraps :
    nthClientId 4 2 true (2 ^ 31) = some (-2147483648)
      ∧ nthClientId 4 2 true (2 ^ 32 + 1) = nthClientId 4 2 true 1 := by
  constructor
  · rw [nthClientId_eq 4 2 true (2 ^ 31) (by norm_num)]
    decide
  · rw [nthClientId_eq 4 2 true (2 ^ 32 + 1) (by norm_num),
      nthClientId_eq 4 2 true 1 (by norm_num)]
    decide

/-- C9, amended: on a fresh server every connection up to number `2 ^ 31 - 1` is assigned
its own number as `clientId` (so the first is 1 and each is one greater than the one before),
and two connections whose numbers differ by less than `2 ^ 32` never get the same
`clientId`. -/
theorem clientId_sequential (txPacketSize LWS_PRE : Nat) (d : Bool) (i j : Nat)
    (hi : 1 ≤ i) (hij : i < j) :
    (j < 2 ^ 31 → nthClientId txPacketSize LWS_PRE d i = some (i : Int)
        ∧ nthClientId txPacketSize LWS_PRE d j = some (j : Int))
      ∧ (j - i < 2 ^ 32 →
          nthClientId txPacketSize LWS_PRE d i ≠ nthClientId txPacketSize LWS_PRE d j) := by
  refine ⟨?_, ?_⟩
  · intro hj
    have h1 : i % 2 ^ 32 = i := by omega
    have h2 : j % 2 ^ 32 = j := by omega
    rw [nthClientId_eq _ _ _ i hi, nthClientId_eq _ _ _ j (by omega), h1, h2,
      toInt32_of_lt i (by omega), toInt32_of_lt j hj]
    exact ⟨rfl, rfl⟩
  · intro hd h
    rw [nthClientId_eq _ _ _ i hi, nthClientId_eq _ _ _ j (by omega)] at h
    have h3 := toInt32_injOn _ _ (Nat.mod_lt i (by norm_num)) (Nat.mod_lt j (by norm_num))
      (Option.some.inj h)
    omega

/-- C9, amended, at a concrete input: the connections 1 and 2. -/
theorem clientId_sequential_witness :
    nthClientId 4 2 true 1 = some 1 ∧ nthClientId 4 2 true 2 = some 2
      ∧ nthClientId 4 2 true 1 ≠ nthClientId 4 2 true 2 :=
  ⟨((clientId_sequential 4 2 true 1 2 (by decide) (by decide)).1 (by decide)).1,
    ((clientId_sequential 4 2 true 1 2 (by decide) (by decide)).1 (by decide)).2,
    (clientId_sequential 4 2 true 1 2 (by decide) (by decide)).2 (by decide)⟩

/-! ## The claims on the HTTP pipeline -/

set_option maxRecDepth 100000

/-- C3, the code at the failing input: the header `a=1;sessionId=42` holds the pair
`sessionId=42`, but every round of the loop over its segments splits the whole header on `=`,
which gives three parts, so the cookie map stays empty; the request is given the drawn id 7
and a new session 7 is registered, not the session id 42. The header `sessionId=42` alone
resolves to 42 without a new session. -/
theorem sessionId_in_second_cookie_pair_is_lost :
    holdsSessionIdPair "a=1;sessionId=42".toList = true
      ∧ split "a=1;sessionId=42".toList '=' = ["a".toList, "1;sessionId".toList, "42".toList]
      ∧ parseCookies "a=1;sessionId=42".toList = []
      ∧ callbackHttp htmlEscape (some exampleDelegate) 7
          { exampleWsi with cookie := some "a=1;sessionId=42".toList }
          (WebsocketServer.new 4 2 true) exampleClientData (HttpReason.http "/page".toList)
        = Except.ok
            { result := 0
              server := createSessionData (WebsocketServer.new 4 2 true) 7
              clientData :=
                { httpRequest := some ⟨[], "/page".toList⟩
                  httpResponse := some ⟨"text/html".toList, "hi".toList⟩
                  sessionId := 7 }
              actions :=
                [Action.httpRequestDelegate "/page".toList [] (some ⟨7⟩) "10.0.0.1".toList,
                  Action.writeHttpHeaders
                    (createHttpHeader htmlEscape ⟨"text/html".toList, "hi".toList⟩ 7),
                  Action.callbackOnWritable] }
      ∧ callbackHttp htmlEscape (some exampleDelegate) 7
          { exampleWsi with cookie := some "sessionId=42".toList }
          (WebsocketServer.new 4 2 true) exampleClientData (HttpReason.http "/page".toList)
        = Except.ok
            { result := 0
              server :=
                { WebsocketServer.new 4 2 true with m_sessionData := [(42, none)] }
              clientData :=
                { httpRequest := some ⟨[], "/page".toList⟩
                  httpResponse := some ⟨"text/html".toList, "hi".toList⟩
                  sessionId := 42 }
              actions :=
                [Action.httpRequestDelegate "/page".toList [] none "10.0.0.1".toList,
                  Action.writeHttpHeaders
                    (createHttpHeader htmlEscape ⟨"text/html".toList, "hi".toList⟩ 42),
                  Action.callbackOnWritable] } := by
  refine ⟨by decide, by decide, by decide, by rfl, by rfl⟩

/-- C5, the code at the failing input: for the header `sessionId=abc`, a `sessionId` pair
whose value is no integer, `callbackHttp` generates no session id; the call `std::stoi`
raises `std::invalid_argument` and the function is left by that exception. The other
headers without an integer `sessionId` value do get the drawn id 7 and a new session 7: the
header `a=1;sessionId=abc`, the header `sessionId` without a `=`, and no header at all. -/
theorem non_integer_sessionId_raises :
    callbackHttp htmlEscape (some exampleDelegate) 7
        { exampleWsi with cookie := some "sessionId=abc".toList }
        (WebsocketServer.new 4 2 true) exampleClientData (HttpReason.http "/page".toList)
      = Except.error Fault.invalid_argument
    ∧ stoi "abc".toList = Except.error Fault.invalid_argument
    ∧ resolveSessionId 7 { exampleWsi with cookie := some "a=1;sessionId=abc".toList }
          (WebsocketServer.new 4 2 true)
        = Except.ok (7, createSessionData (WebsocketServer.new 4 2 true) 7)
    ∧ resolveSessionId 7 { exampleWsi with cookie := some "sessionId".toList }
          (WebsocketServer.new 4 2 true)
        = Except.ok (7, createSessionData (WebsocketServer.new 4 2 true) 7)
    ∧ resolveSessionId 7 exampleWsi (WebsocketServer.new 4 2 true)
        = Except.ok (7, createSessionData (WebsocketServer.new 4 2 true) 7) := by
  refine ⟨by rfl, by rfl, by rfl, by rfl, by rfl⟩

/-- C7, the code at the failing input: for an empty raw URI, when
`lws_http_transaction_completed` returns `0`, `callbackHttp` answers with status 400 and then
goes on: it registers the session 7, stores a request object in the per-connection memory,
calls the HTTP request delegate and writes the header of a second response. -/
theorem empty_uri_is_processed_after_status_400 :
    exampleWsi.transactionCompleted = 0
      ∧ callbackHttp htmlEscape (some exampleDelegate) 7 exampleWsi
          (WebsocketServer.new 4 2 true) exampleClientData (HttpReason.http [])
        = Except.ok
            { result := 0
              server := createSessionData (WebsocketServer.new 4 2 true) 7
              clientData :=
                { httpRequest := some ⟨[], []⟩
                  httpResponse := some ⟨"text/html".toList, "hi".toList⟩
                  sessionId := 7 }
              actions :=
                [Action.returnHttpStatus 400 none,
                  Action.httpTransactionCompleted,
                  Action.httpRequestDelegate [] [] (some ⟨7⟩) "10.0.0.1".toList,
                  Action.writeHttpHeaders
                    (createHttpHeader htmlEscape ⟨"text/html".toList, "hi".toList⟩ 7),
                  Action.callbackOnWritable] } := by
  refine ⟨by rfl, by rfl⟩

/-- The fresh session of a request with a URI that is not empty and whose `Cookie` header is
absent or holds no `sessionId` pair: it gets the drawn session id, a number below
65536; `createSessionData` registers a new session under it in the session store; it is the
session id of the request, and a header that is written is the one `createHttpHeader` renders
for it, which ends in the `set-cookie` line with that id. -/
theorem fresh_session_without_sessionId_pair (escape : Str → Str)
    (delegate : Option HttpRequestDelegate) (rnd : Nat) (wsi : Wsi) (s : WebsocketServer)
    (clientData : ClientData) (uri : Str)
    (huri : uri ≠ [])
    (hcookie : ∀ cookiesStr, wsi.cookie = some cookiesStr
      → holdsSessionIdPair cookiesStr = false) :
    ∃ o, callbackHttp escape delegate rnd wsi s clientData (HttpReason.http uri) = Except.ok o
      ∧ toUInt16 rnd < 65536
      ∧ o.server = createSessionData s (toUInt16 rnd)
      ∧ StdMap.get? o.server.m_sessionData (toUInt16 rnd) = some (some ⟨toUInt16 rnd⟩)
      ∧ o.clientData.sessionId = toUInt16 rnd
      ∧ ∀ bytes, Action.writeHttpHeaders bytes ∈ o.actions →
          ∃ response, o.clientData.httpResponse = some response
            ∧ bytes = (createHttpHeader escape response (toUInt16 rnd)).take
                (toUInt32 (createHttpHeader escape response (toUInt16 rnd)).length)
            ∧ ∃ before, createHttpHeader escape response (toUInt16 rnd)
                = before ++ "set-cookie: sessionId=".toList
                    ++ escape (to_string (toUInt16 rnd : Nat)) ++ "\n\n".toList := by
  have hspec : ∀ actions : List Action, (∀ bytes, Action.writeHttpHeaders bytes ∉ actions) →
      ∃ o, callbackHttpRequest escape delegate rnd wsi s clientData uri actions = Except.ok o
        ∧ toUInt16 rnd < 65536
        ∧ o.server = createSessionData s (toUInt16 rnd)
        ∧ StdMap.get? o.server.m_sessionData (toUInt16 rnd) = some (some ⟨toUInt16 rnd⟩)
        ∧ o.clientData.sessionId = toUInt16 rnd
        ∧ ∀ bytes, Action.writeHttpHeaders bytes ∈ o.actions →
            ∃ response, o.clientData.httpResponse = some response
              ∧ bytes = (createHttpHeader escape response (toUInt16 rnd)).take
                  (toUInt32 (createHttpHeader escape response (toUInt16 rnd)).length)
              ∧ ∃ before, createHttpHeader escape response (toUInt16 rnd)
                  = before ++ "set-cookie: sessionId=".toList
                      ++ escape (to_string (toUInt16 rnd : Nat)) ++ "\n\n".toList := by
    intro actions hacts
    obtain ⟨h1, h2, h3⟩ := callbackHttpRespond_spec escape delegate wsi
      (createSessionData s (toUInt16 rnd)) clientData uri actions (toUInt16 rnd) _
      (createSessionData_entry s _) hacts
    refine ⟨_, by unfold callbackHttpRequest; rw [resolveSessionId_fresh rnd wsi s hcookie],
      toUInt16_lt _, h1, ?_, h2, ?_⟩
    · rw [h1]
      exact createSessionData_entry s _
    · intro bytes hb
      obtain ⟨response, hr, hbytes⟩ := h3 bytes hb
      refine ⟨response, hr, hbytes, ?_⟩
      refine ⟨"HTTP/1.1 200 OK\ncontent-type: ".toList ++ escape response.contentType
        ++ "\naccept-ranges: bytes\ncontent-length: ".toList
        ++ escape (to_string (toInt32 (toInt32 (response.content.length : Int) + 1)))
        ++ "\ncache-control: no-store\nconnection: keep-alive\n".toList, ?_⟩
      rw [createHttpHeader_of_length escape response _ _ rfl,
        Nat.mod_eq_of_lt (toUInt16_lt _)]
      simp only [List.append_assoc]
      rfl
  have hlen : ¬ (uri.length < 1) := by
    intro h
    exact huri (List.length_eq_zero.mp (by omega))
  unfold callbackHttp
  simp only [hlen, if_false]
  exact hspec _ (by simp)

/-- The fresh session at a concrete input: the request of `/page` with the header `a=1`, the
drawn number 70007 (the id is 70007 modulo 65536, which is 4471). -/
theorem fresh_session_without_sessionId_pair_witness :
    ∃ o, callbackHttp htmlEscape (some exampleDelegate) 70007
          { exampleWsi with cookie := some "a=1".toList }
          (WebsocketServer.new 4 2 true) exampleClientData (HttpReason.http "/page".toList)
        = Except.ok o
      ∧ o.server = createSessionData (WebsocketServer.new 4 2 true) 4471
      ∧ o.clientData.sessionId = 4471 := by
  obtain ⟨o, h1, _, h3, _, h5, _⟩ :=
    fresh_session_without_sessionId_pair htmlEscape (some exampleDelegate) 70007
      { exampleWsi with cookie := some "a=1".toList }
      (WebsocketServer.new 4 2 true) exampleClientData "/page".toList
      (by decide)
      (by
        intro cookiesStr h
        cases h
        decide)
  exact ⟨o, h1, h3, h5⟩

/-- C6, the code at the failing input: for a body of `2 ^ 31` bytes the `int32_t`
`contentLength` is `-2147483648` and the header says `content-length: -2147483647`, while
the content frame of the HTTP-writable event that follows (the body and one newline) has
2147483649 bytes. -/
theorem content_length_of_2GiB_body_is_negative :
    createHttpHeader htmlEscape ⟨"text/html".toList, body2GiB⟩ 7
        = ("HTTP/1.1 200 OK\ncontent-type: text/html\naccept-ranges: bytes\n"
            ++ "content-length: -2147483647\ncache-control: no-store\n"
            ++ "connection: keep-alive\nset-cookie: sessionId=7\n\n").toList
      ∧ callbackHttp htmlEscape (some exampleDelegate) 7 exampleWsi
            (WebsocketServer.new 4 2 true)
            ⟨none, some ⟨"text/html".toList, body2GiB⟩, 7⟩ HttpReason.httpWriteable
          = Except.ok ⟨-1, WebsocketServer.new 4 2 true,
              ⟨none, some ⟨"text/html".toList, body2GiB⟩, 7⟩,
              [Action.writeHttp (body2GiB ++ ['\n'])]⟩
      ∧ (body2GiB ++ ['\n']).length = 2147483649 := by
  refine ⟨?_, ?_, ?_⟩
  · rw [createHttpHeader_of_length htmlEscape _ 7 2147483648 body2GiB_length]
    rfl
  · exact callbackHttp_httpWriteable htmlEscape _ 7 exampleWsi _ _
      ⟨"text/html".toList, body2GiB⟩ 2147483648 rfl body2GiB_length (by norm_num)
  · rw [List.length_append, body2GiB_length]
    rfl

end OpendlvUi
